import Mathlib

/-!
# Khipu payment forwarder (`khipu_api/openapi/api_default.go`)

A shallow embedding of the service logic of `api_default.go`:

* `prepareKhipuPayload` : the request validator (source lines 39-59);
* `createKhipuPayment`  : the forwarder (source lines 62-163);
* `PostPayment`         : the HTTP handler (source lines 171-208).

Everything the Go code obtains from outside the file (process environment,
`json.Marshal`, `http.NewRequest`, `client.Do`, `json.Unmarshal`, the gin
binding of the inbound body) is a field of `World` or of `Context`, so a
statement quantified over `World` holds for every behaviour of those parts.
Logging is not modelled.  To make "no outbound call" a statement about the
program, `createKhipuPayment` returns, next to the Go result pair, the list of
externally visible steps it took (`Event`).
-/

namespace Khipu

/-! ## Data model -/

/-- Go `time.Time`, reduced to the two quantities `Time.IsZero` inspects:
seconds since January 1, year 1 00:00:00 UTC, and nanoseconds within the second. -/
structure Time where
  sec : Int
  nsec : Nat
deriving DecidableEq, Repr

/-- Go `func (t Time) IsZero() bool { return t.sec() == 0 && t.nsec() == 0 }`. -/
def Time.IsZero (t : Time) : Bool := t.sec == 0 && t.nsec == 0

/-- Dynamic values stored under `interface{}` in this program: the payload
values (`string`, the numeric amount, `time.Time`) and the values produced by
decoding JSON. -/
inductive GoValue where
  | null
  | bool (b : Bool)
  | num (q : ℚ)
  | str (s : String)
  | time (t : Time)
  | arr (xs : List GoValue)
  | obj (kvs : List (String × GoValue))

/-- Contents of a non-nil Go `map[string]interface{}`: an association list with
at most one binding per key when built through `mapSet`. -/
abbrev MapData := List (String × GoValue)

/-- Go `map[string]interface{}` value: `none` is the nil map. -/
abbrev GoMap := Option MapData

/-- Go map assignment `m[k] = v`: replaces the binding of `k` or adds one. -/
def mapSet : MapData → String → GoValue → MapData
  | [], k, v => [(k, v)]
  | (k', v') :: rest, k, v =>
    if k' = k then (k, v) :: rest else (k', v') :: mapSet rest k v

/-- Go map lookup `v, ok := m[k]`. -/
def mapGet : MapData → String → Option GoValue
  | [], _ => none
  | (k', v') :: rest, k => if k' = k then some v' else mapGet rest k

/-- Modelled from the spec: the struct `PaymentPostPayment` is declared in a
file of the repository that is not under `src/`.  The fields are the ones
`api_default.go` reads; `Amount` is "numeric" in the spec and is compared with
`0` only, so it is a rational here (every value a JSON number can bind to). -/
structure PaymentPostPayment where
  Subject : String
  Amount : ℚ
  Currency : String
  TransactionId : String
  Custom : String
  Body : String
  BankId : String
  PayerEmail : String
  ReturnUrl : String
  CancelUrl : String
  NotifyUrl : String
  PictureUrl : String
  ExpiresDate : Time
  ConfirmTimeoutDate : Time

/-- Source lines 21-25. `KhipuResponseData` is an `interface{}`: `none` is the
nil interface, `some m` an interface holding a `map[string]interface{}` (the
only dynamic type this program stores there), where `m` itself may be the nil
map. -/
structure KhipuServiceError where
  Message : String
  StatusCode : Int
  KhipuResponseData : Option GoMap

/-- Go `error` values: a `*KhipuServiceError` or any other error. -/
inductive GoError where
  | khipu (e : KhipuServiceError)
  | other (msg : String)

def StatusCreated : Int := 201
def StatusBadRequest : Int := 400
def StatusInternalServerError : Int := 500
def StatusServiceUnavailable : Int := 503

def defaultKhipuTargetAPIURL : String := "https://payment-api.khipu.com"

/-! ## Validator (source lines 39-59) -/

def msgMissingFields : String := "Faltan campos obligatorios: subject, amount, currency"
def msgInvalidCurrency : String := "Moneda no válida para la API Key configurada. Usar ARS."
def msgAmountNotPositive : String := "El monto debe ser mayor que cero"

/-- Source lines 39-59; `none` is the Go `nil` error. -/
def prepareKhipuPayload (clientData : PaymentPostPayment) : Option GoError :=
  if clientData.Subject = "" ∨ clientData.Amount = 0 ∨ clientData.Currency = "" then
    some (.khipu { Message := msgMissingFields, StatusCode := StatusBadRequest,
                   KhipuResponseData := none })
  else if clientData.Currency ≠ "ARS" then
    some (.khipu { Message := msgInvalidCurrency, StatusCode := StatusBadRequest,
                   KhipuResponseData := none })
  else if clientData.Amount ≤ 0 then
    some (.khipu { Message := msgAmountNotPositive, StatusCode := StatusBadRequest,
                   KhipuResponseData := none })
  else none

/-- A request with every optional field at its Go zero value. -/
def basicRequest (subject : String) (amount : ℚ) (currency : String) : PaymentPostPayment :=
  { Subject := subject, Amount := amount, Currency := currency,
    TransactionId := "", Custom := "", Body := "", BankId := "", PayerEmail := "",
    ReturnUrl := "", CancelUrl := "", NotifyUrl := "", PictureUrl := "",
    ExpiresDate := ⟨0, 0⟩, ConfirmTimeoutDate := ⟨0, 0⟩ }

/-! ## Outside world -/

/-- Go `*http.Request`, as far as `createKhipuPayment` fills it. -/
structure HttpRequest where
  Method : String
  URL : String
  Header : List (String × String)
  Body : String

/-- Go `*http.Response`: the status code and the bytes `io.ReadAll(resp.Body)`
yields. -/
structure HttpResponse where
  StatusCode : Int
  Body : String

/-- Go `req.Header.Set(key, value)`: the values of `key` are replaced by
`value`.  The canonical spelling Go gives to header names is not modelled. -/
def HttpRequest.setHeader (req : HttpRequest) (key value : String) : HttpRequest :=
  { req with Header := (key, value) :: req.Header.filter (fun kv => kv.1 ≠ key) }

/-- What `createKhipuPayment` obtains from outside `api_default.go`.  `environ`
is the process environment; `jsonMarshal` is `json.Marshal` on the payload map;
`newRequestError` is the error, if any, of `http.NewRequest` for a method and
URL; `clientDo` is `client.Do` (the provider and the network, `Except.error t`
being a transport failure with text `t`); `jsonUnmarshal body m` is
`json.Unmarshal(body, &m)`, returning the new value of the map variable and the
error. -/
structure World where
  environ : String → Option String
  jsonMarshal : MapData → Except String String
  newRequestError : String → String → Option String
  clientDo : HttpRequest → Except String HttpResponse
  jsonUnmarshal : String → GoMap → GoMap × Option String

/-- Go `os.Getenv`: the empty string when the variable is unset. -/
def World.Getenv (w : World) (name : String) : String := (w.environ name).getD ""

/-- Go `http.NewRequest(method, url, body)`. -/
def World.NewRequest (w : World) (method url body : String) : Except String HttpRequest :=
  match w.newRequestError method url with
  | some e => .error e
  | none => .ok { Method := method, URL := url, Header := [], Body := body }

/-- Externally visible steps of `createKhipuPayment`: the payload map has been
built (source lines 83-103), `client.Do` has been called (source line 132). -/
inductive Event where
  | payloadBuilt (payload : MapData)
  | doCalled (req : HttpRequest)

/-- Result of `createKhipuPayment`: the Go result pair and the steps taken. -/
structure Outcome where
  data : GoMap
  err : Option GoError
  trace : List Event

/-! ## Forwarder (source lines 62-163) -/

def msgMissingKey : String := "Error de configuración del servidor: clave API de Khipu faltante"
def msgMarshal : String := "Error interno al procesar datos"
def msgNewRequest : String := "Error interno al crear la petición"
def msgConnection : String := "Error de conexión con Khipu API: "
def msgProvider : String := "Error recibido desde la API de Khipu"

/-- Source lines 83-103: the payload map. -/
def buildPayload (clientData : PaymentPostPayment) : MapData :=
  let payload : MapData := []
  let payload := mapSet payload "subject" (.str clientData.Subject)
  let payload := mapSet payload "amount" (.num clientData.Amount)
  let payload := mapSet payload "currency" (.str clientData.Currency)
  let payload := if clientData.TransactionId ≠ "" then
    mapSet payload "transaction_id" (.str clientData.TransactionId) else payload
  let payload := if clientData.Custom ≠ "" then
    mapSet payload "custom" (.str clientData.Custom) else payload
  let payload := if clientData.Body ≠ "" then
    mapSet payload "body" (.str clientData.Body) else payload
  let payload := if clientData.BankId ≠ "" then
    mapSet payload "bank_id" (.str clientData.BankId) else payload
  let payload := if clientData.PayerEmail ≠ "" then
    mapSet payload "payer_email" (.str clientData.PayerEmail) else payload
  let payload := if clientData.ReturnUrl ≠ "" then
    mapSet payload "return_url" (.str clientData.ReturnUrl) else payload
  let payload := if clientData.CancelUrl ≠ "" then
    mapSet payload "cancel_url" (.str clientData.CancelUrl) else payload
  let payload := if clientData.NotifyUrl ≠ "" then
    mapSet payload "notify_url" (.str clientData.NotifyUrl) else payload
  let payload := if clientData.PictureUrl ≠ "" then
    mapSet payload "picture_url" (.str clientData.PictureUrl) else payload
  let payload := if !clientData.ExpiresDate.IsZero then
    mapSet payload "expires_date" (.time clientData.ExpiresDate) else payload
  let payload := if !clientData.ConfirmTimeoutDate.IsZero then
    mapSet payload "confirm_timeout_date" (.time clientData.ConfirmTimeoutDate) else payload
  payload

/-- Source lines 144-148: decode the provider body into a nil map variable and
fall back to the `raw_response` wrapper when `json.Unmarshal` reports an error. -/
def decodeResponse (w : World) (body : String) : GoMap :=
  let (responseData, err) := w.jsonUnmarshal body none
  if err.isSome then some [("raw_response", .str body)] else responseData

/-- Source lines 62-163. -/
def createKhipuPayment (w : World) (clientData : PaymentPostPayment) : Outcome :=
  let apiKey := w.Getenv "KHIPU_MERCHANT_API_KEY"
  let baseURL := w.Getenv "KHIPU_TARGET_API_URL"
  let baseURL := if baseURL = "" then defaultKhipuTargetAPIURL else baseURL
  if apiKey = "" then
    { data := none,
      err := some (.khipu { Message := msgMissingKey, StatusCode := StatusInternalServerError,
                            KhipuResponseData := none }),
      trace := [] }
  else
    match prepareKhipuPayload clientData with
    | some err => { data := none, err := some err, trace := [] }
    | none =>
      let payload := buildPayload clientData
      match w.jsonMarshal payload with
      | .error _ =>
        { data := none,
          err := some (.khipu { Message := msgMarshal, StatusCode := StatusInternalServerError,
                                KhipuResponseData := none }),
          trace := [.payloadBuilt payload] }
      | .ok payloadBytes =>
        let apiEndpoint := baseURL ++ "/v3/payments"
        match w.NewRequest "POST" apiEndpoint payloadBytes with
        | .error _ =>
          { data := none,
            err := some (.khipu { Message := msgNewRequest,
                                  StatusCode := StatusInternalServerError,
                                  KhipuResponseData := none }),
            trace := [.payloadBuilt payload] }
        | .ok req =>
          let req := req.setHeader "Content-Type" "application/json"
          let req := req.setHeader "Accept" "application/json"
          let req := req.setHeader "x-api-key" apiKey
          match w.clientDo req with
          | .error e =>
            { data := none,
              err := some (.khipu { Message := msgConnection ++ e,
                                    StatusCode := StatusServiceUnavailable,
                                    KhipuResponseData := none }),
              trace := [.payloadBuilt payload, .doCalled req] }
          | .ok resp =>
            let responseData := decodeResponse w resp.Body
            if resp.StatusCode ≥ 200 ∧ resp.StatusCode < 300 then
              { data := responseData, err := none,
                trace := [.payloadBuilt payload, .doCalled req] }
            else
              { data := none,
                err := some (.khipu { Message := msgProvider, StatusCode := resp.StatusCode,
                                      KhipuResponseData := some responseData }),
                trace := [.payloadBuilt payload, .doCalled req] }

/-- Source lines 65-68 and 117: the URL the payload is posted to. -/
def apiEndpoint (w : World) : String :=
  (if w.Getenv "KHIPU_TARGET_API_URL" = "" then defaultKhipuTargetAPIURL
   else w.Getenv "KHIPU_TARGET_API_URL") ++ "/v3/payments"

/-- Source lines 118-126: the request `createKhipuPayment` hands to `client.Do`
once `http.NewRequest` has accepted the URL, for the serialised payload
`payloadBytes`. -/
def outboundRequest (w : World) (payloadBytes : String) : HttpRequest :=
  ((({ Method := "POST", URL := apiEndpoint w, Header := [], Body := payloadBytes } :
      HttpRequest).setHeader "Content-Type" "application/json").setHeader
      "Accept" "application/json").setHeader "x-api-key" (w.Getenv "KHIPU_MERCHANT_API_KEY")

/-! ## Handler (source lines 171-208) -/

/-- The object handed to gin's `c.JSON`: a `gin.H` literal or a relayed
`map[string]interface{}` (possibly the nil map, which gin serialises as `null`). -/
inductive JSONObj where
  | H (fields : MapData)
  | relay (m : GoMap)

/-- The HTTP response written through `c.JSON(code, obj)`: the two arguments
of the call.  What gin does with them (serialisation, no body for a status
that does not allow one) is outside `api_default.go`. -/
structure Reply where
  code : Int
  obj : JSONObj

/-- The gin context of an inbound request, through the one thing the handler
asks of it: the result of `c.ShouldBindJSON(&clientData)`. -/
structure Context where
  ShouldBindJSON : Except String PaymentPostPayment

/-- Source lines 171-208: the reply written and the steps of the forwarder. -/
def PostPayment (w : World) (c : Context) : Reply × List Event :=
  match c.ShouldBindJSON with
  | .error e =>
    (⟨StatusBadRequest, .H [("error", .str "El cuerpo de la solicitud debe ser un JSON válido"),
                            ("details", .str e)]⟩, [])
  | .ok clientData =>
    let out := createKhipuPayment w clientData
    match out.err with
    | some (.khipu serviceErr) =>
      match serviceErr.KhipuResponseData with
      | some d => (⟨serviceErr.StatusCode, .relay d⟩, out.trace)
      | none => (⟨serviceErr.StatusCode, .H [("error", .str serviceErr.Message)]⟩, out.trace)
    | some (.other _) =>
      (⟨StatusInternalServerError,
        .H [("error", .str "Error interno del servidor al procesar el pago")]⟩, out.trace)
    | none => (⟨StatusCreated, .relay out.data⟩, out.trace)

/-! ## A reference model of `encoding/json` decoding

`World.jsonUnmarshal` is arbitrary in the general theorems.  For evaluation at
concrete provider bodies, `goUnmarshal` follows the documented behaviour of
`json.Unmarshal` into a `map[string]interface{}` variable: a syntax error
leaves the variable untouched; a JSON object fills the map (allocating it when
nil); the JSON literal `null` sets the variable to the nil map and reports no
error; any other JSON value is an `UnmarshalTypeError`.  A number literal
decodes to the `float64` nearest to it (ties to even), held as a rational; a
literal outside the `float64` range decodes to nil and makes the call report
an error. -/

def isWs (c : Char) : Bool := c = ' ' || c = '\t' || c = '\n' || c = '\r'

def skipWs : List Char → List Char
  | [] => []
  | c :: cs => if isWs c then skipWs cs else c :: cs

def hexDigit (c : Char) : Option Nat :=
  if '0' ≤ c ∧ c ≤ '9' then some (c.toNat - '0'.toNat)
  else if 'a' ≤ c ∧ c ≤ 'f' then some (c.toNat - 'a'.toNat + 10)
  else if 'A' ≤ c ∧ c ≤ 'F' then some (c.toNat - 'A'.toNat + 10)
  else none

def hex4 (a b c d : Char) : Option Nat :=
  match hexDigit a, hexDigit b, hexDigit c, hexDigit d with
  | some x, some y, some z, some w => some (((x * 16 + y) * 16 + z) * 16 + w)
  | _, _, _, _ => none

/-- The code unit of a leading `\uXXXX` escape, if the input starts with one. -/
def getu4 : List Char → Option Nat
  | '\\' :: 'u' :: a :: b :: c :: d :: _ => hex4 a b c d
  | _ => none

/-- The characters of a JSON string after its opening quote, up to and
including the closing quote; `acc` holds the decoded characters in reverse. -/
def parseStringBody : Nat → List Char → List Char → Option (String × List Char)
  | 0, _, _ => none
  | _ + 1, _, [] => none
  | _ + 1, acc, '"' :: rest => some (String.mk acc.reverse, rest)
  | fuel + 1, acc, '\\' :: 'u' :: a :: b :: c :: d :: rest =>
    match hex4 a b c d with
    | none => none
    | some hi =>
      if 0xD800 ≤ hi ∧ hi < 0xE000 then
        match getu4 rest with
        | some lo =>
          if hi < 0xDC00 ∧ 0xDC00 ≤ lo ∧ lo < 0xE000 then
            parseStringBody fuel
              (Char.ofNat (0x10000 + (hi - 0xD800) * 0x400 + (lo - 0xDC00)) :: acc)
              (rest.drop 6)
          else parseStringBody fuel (Char.ofNat 0xFFFD :: acc) rest
        | none => parseStringBody fuel (Char.ofNat 0xFFFD :: acc) rest
      else parseStringBody fuel (Char.ofNat hi :: acc) rest
  | fuel + 1, acc, '\\' :: e :: rest =>
    if e = '"' then parseStringBody fuel ('"' :: acc) rest
    else if e = '\\' then parseStringBody fuel ('\\' :: acc) rest
    else if e = '/' then parseStringBody fuel ('/' :: acc) rest
    else if e = 'b' then parseStringBody fuel (Char.ofNat 8 :: acc) rest
    else if e = 'f' then parseStringBody fuel (Char.ofNat 12 :: acc) rest
    else if e = 'n' then parseStringBody fuel ('\n' :: acc) rest
    else if e = 'r' then parseStringBody fuel ('\r' :: acc) rest
    else if e = 't' then parseStringBody fuel ('\t' :: acc) rest
    else none
  | fuel + 1, acc, c :: rest =>
    if c.toNat < 0x20 ∨ c = '\\' then none else parseStringBody fuel (c :: acc) rest

def parseString (cs : List Char) : Option (String × List Char) :=
  parseStringBody (cs.length + 1) [] cs

def digitsValue (ds : List Char) : Nat :=
  ds.foldl (fun n c => 10 * n + (c.toNat - '0'.toNat)) 0

/-- The integer part of a JSON number: a single `0`, or a run of digits that
does not start with `0`. -/
def takeInt : List Char → List Char × List Char
  | '0' :: rest => (['0'], rest)
  | cs => cs.span Char.isDigit

/-- The least magnitude that no longer rounds to a finite `float64`:
`2 ^ 1024 - 2 ^ 970`, written out. -/
def float64Limit : Nat :=
  179769313486231580793728971405303415079934132710037826936173778980444968292764750946649017977587207096330286416692887910946555547851940402630657488671505820681908902000708383676273854845817711531764475730270069855571366959622842914819860834936475292719074168444365510704342711559699508093042880177904174497792

/-- The `float64` nearest to the positive rational `num / den` (ties to even),
as a pair `(m, e)` denoting `m * 2 ^ e` with `m < 2 ^ 53 + 1` and `-1074 ≤ e`;
`den` is positive. -/
def roundFloat64 (num den : Nat) : Nat × Int :=
  if num = 0 then (0, 0) else
  let e0 : Int := (Nat.log2 num : Int) - (Nat.log2 den : Int) - 52
  let e1 : Int :=
    if num <<< (- e0).toNat < (den <<< e0.toNat) <<< 52 then e0 - 1 else e0
  let e : Int := max e1 (-1074)
  let n := num <<< (- e).toNat
  let d := den <<< e.toNat
  let m0 := n / d
  let rem := n % d
  let m := if d < 2 * rem ∨ (2 * rem = d ∧ m0 % 2 = 1) then m0 + 1 else m0
  (m, e)

/-- A JSON number literal: the `float64` it decodes to, whether it is outside
the `float64` range, and the rest of the input.  The literal denotes
`± num / den`. -/
def parseNumber (cs : List Char) : Option (GoValue × Bool × List Char) :=
  let (neg, cs) := match cs with
    | '-' :: rest => (true, rest)
    | _ => (false, cs)
  let (ip, cs) := takeInt cs
  if ip = [] then none else
  let fracPart : Option (List Char × List Char) := match cs with
    | '.' :: rest =>
      let (fp, rest) := rest.span Char.isDigit
      if fp = [] then none else some (fp, rest)
    | _ => some ([], cs)
  match fracPart with
  | none => none
  | some (fp, cs) =>
    let expPart : Option (Int × List Char) := match cs with
      | e :: rest =>
        if e = 'e' ∨ e = 'E' then
          let (eneg, rest) := match rest with
            | '-' :: r => (true, r)
            | '+' :: r => (false, r)
            | _ => (false, rest)
          let (ep, rest) := rest.span Char.isDigit
          if ep = [] then none
          else some (if eneg then - (digitsValue ep : Int) else (digitsValue ep : Int), rest)
        else some (0, cs)
      | [] => some (0, cs)
    match expPart with
    | none => none
    | some (ex, cs) =>
      let shift : Int := ex - (fp.length : Int)
      let num : Nat := digitsValue (ip ++ fp) * 10 ^ shift.toNat
      let den : Nat := 10 ^ (- shift).toNat
      if float64Limit * den ≤ num then some (.null, true, cs)
      else
        let (m, e) := roundFloat64 num den
        let top : Nat := m <<< e.toNat
        some (.num (mkRat (if neg then - (top : Int) else (top : Int)) (1 <<< (- e).toNat)),
              false, cs)

/-- What the decoder is reading: one value, the elements of an array after its
first bracket, or the members of an object after its first brace. -/
inductive Goal where
  | value
  | elems (acc : List GoValue)
  | members (acc : MapData)

def maxNestingDepth : Nat := 10000

/-- The decoder: the value read, whether a number was out of range, and the
rest of the input. -/
def parseGoal : Nat → Nat → Goal → List Char → Option (GoValue × Bool × List Char)
  | 0, _, _, _ => none
  | fuel + 1, depth, .value, cs =>
    match skipWs cs with
    | 'n' :: 'u' :: 'l' :: 'l' :: rest => some (.null, false, rest)
    | 't' :: 'r' :: 'u' :: 'e' :: rest => some (.bool true, false, rest)
    | 'f' :: 'a' :: 'l' :: 's' :: 'e' :: rest => some (.bool false, false, rest)
    | '"' :: rest =>
      match parseString rest with
      | some (s, rest) => some (.str s, false, rest)
      | none => none
    | '[' :: rest =>
      if maxNestingDepth ≤ depth then none else
      match skipWs rest with
      | ']' :: rest => some (.arr [], false, rest)
      | rest => parseGoal fuel (depth + 1) (.elems []) rest
    | '{' :: rest =>
      if maxNestingDepth ≤ depth then none else
      match skipWs rest with
      | '}' :: rest => some (.obj [], false, rest)
      | rest => parseGoal fuel (depth + 1) (.members []) rest
    | cs => parseNumber cs
  | fuel + 1, depth, .elems acc, cs =>
    match parseGoal fuel depth .value cs with
    | none => none
    | some (v, bad, rest) =>
      match skipWs rest with
      | ',' :: rest =>
        match parseGoal fuel depth (.elems (acc ++ [v])) rest with
        | some (vs, bad', rest) => some (vs, bad || bad', rest)
        | none => none
      | ']' :: rest => some (.arr (acc ++ [v]), bad, rest)
      | _ => none
  | fuel + 1, depth, .members acc, cs =>
    match skipWs cs with
    | '"' :: rest =>
      match parseString rest with
      | none => none
      | some (k, rest) =>
        match skipWs rest with
        | ':' :: rest =>
          match parseGoal fuel depth .value rest with
          | none => none
          | some (v, bad, rest) =>
            match skipWs rest with
            | ',' :: rest =>
              match parseGoal fuel depth (.members (mapSet acc k v)) rest with
              | some (o, bad', rest) => some (o, bad || bad', rest)
              | none => none
            | '}' :: rest => some (.obj (mapSet acc k v), bad, rest)
            | _ => none
        | _ => none
    | _ => none

/-- A complete JSON text: one value surrounded by optional white space. -/
def parseJSON (s : String) : Option (GoValue × Bool) :=
  match parseGoal (2 * s.length + 2) 0 .value s.data with
  | some (v, bad, rest) => if skipWs rest = [] then some (v, bad) else none
  | none => none

/-- Reference model of `json.Unmarshal(body, &m)` for `m` of type
`map[string]interface{}`. -/
def goUnmarshal (body : String) (m : GoMap) : GoMap × Option String :=
  match parseJSON body with
  | none => (m, some "invalid character in JSON input")
  | some (.null, false) => (none, none)
  | some (.obj kvs, bad) =>
    (some (kvs.foldl (fun acc kv => mapSet acc kv.1 kv.2) (m.getD [])),
     if bad then some "json: cannot unmarshal number into Go value of type float64" else none)
  | some (_, _) =>
    (m, some "json: cannot unmarshal into Go value of type map")

/-- A simulated deployment: the API key found in the environment (if any), the
base URL found there (if any) and the answer of `client.Do` are given; decoding
is `goUnmarshal`; `http.NewRequest` accepts the URL; the bytes `json.Marshal`
produces are a placeholder, as nothing in `api_default.go` inspects them. -/
def simulatedWorld (apiKey baseURL : Option String) (provider : Except String HttpResponse) :
    World :=
  { environ := fun name =>
      if name = "KHIPU_MERCHANT_API_KEY" then apiKey
      else if name = "KHIPU_TARGET_API_URL" then baseURL
      else none
    jsonMarshal := fun _ => .ok "\x7b\x7d"
    newRequestError := fun _ _ => none
    clientDo := fun _ => provider
    jsonUnmarshal := goUnmarshal }

/-! ## Concrete inputs -/

/-- A valid request with no optional field. -/
def demoRequest : PaymentPostPayment := basicRequest "Order 1" 1000 "ARS"

/-- The request `createKhipuPayment` hands to `client.Do` for `demoRequest` in
`simulatedWorld (some "secret") none _`. -/
def demoOutbound : HttpRequest :=
  { Method := "POST", URL := "https://payment-api.khipu.com/v3/payments",
    Header := [("x-api-key", "secret"), ("Accept", "application/json"),
               ("Content-Type", "application/json")],
    Body := "\x7b\x7d" }

/-! ## Lemmas on the map operations and the payload -/

theorem mapGet_mapSet (m : MapData) (k : String) (v : GoValue) (k' : String) :
    mapGet (mapSet m k v) k' = if k = k' then some v else mapGet m k' := by
  induction m with
  | nil => simp [mapSet, mapGet]
  | cons kv rest ih =>
    obtain ⟨a, b⟩ := kv
    by_cases hak : a = k
    · subst hak
      by_cases hkk : a = k' <;> simp [mapSet, mapGet, hkk]
    · by_cases hkk : k = k'
      · subst hkk
        simp [mapSet, mapGet, hak, ih]
      · simp only [mapSet, mapGet, hak, if_false, ih, hkk]

theorem mapGet_ite_mapSet (c : Prop) [Decidable c] (m : MapData) (k : String) (v : GoValue)
    (k' : String) :
    mapGet (if c then mapSet m k v else m) k' = if c ∧ k = k' then some v else mapGet m k' := by
  by_cases hc : c
  · simp [hc, mapGet_mapSet]
  · simp [hc]

/-- Closed form of the lookups in the payload of source lines 83-103. -/
theorem mapGet_buildPayload (r : PaymentPostPayment) (k : String) :
    mapGet (buildPayload r) k =
      if (!r.ConfirmTimeoutDate.IsZero) = true ∧ "confirm_timeout_date" = k then
        some (.time r.ConfirmTimeoutDate)
      else if (!r.ExpiresDate.IsZero) = true ∧ "expires_date" = k then some (.time r.ExpiresDate)
      else if r.PictureUrl ≠ "" ∧ "picture_url" = k then some (.str r.PictureUrl)
      else if r.NotifyUrl ≠ "" ∧ "notify_url" = k then some (.str r.NotifyUrl)
      else if r.CancelUrl ≠ "" ∧ "cancel_url" = k then some (.str r.CancelUrl)
      else if r.ReturnUrl ≠ "" ∧ "return_url" = k then some (.str r.ReturnUrl)
      else if r.PayerEmail ≠ "" ∧ "payer_email" = k then some (.str r.PayerEmail)
      else if r.BankId ≠ "" ∧ "bank_id" = k then some (.str r.BankId)
      else if r.Body ≠ "" ∧ "body" = k then some (.str r.Body)
      else if r.Custom ≠ "" ∧ "custom" = k then some (.str r.Custom)
      else if r.TransactionId ≠ "" ∧ "transaction_id" = k then some (.str r.TransactionId)
      else if "subject" = k then some (.str r.Subject)
      else if "amount" = k then some (.num r.Amount)
      else if "currency" = k then some (.str r.Currency)
      else none := by
  simp only [buildPayload, mapGet_ite_mapSet, mapGet_mapSet, mapGet]

/-! ## Lemmas on the validator and the forwarder -/

theorem prepare_none_iff (r : PaymentPostPayment) :
    prepareKhipuPayload r = none ↔ (r.Subject ≠ "" ∧ r.Currency = "ARS" ∧ 0 < r.Amount) := by
  unfold prepareKhipuPayload
  constructor
  · intro h
    split_ifs at h with h1 h2 h3
    push_neg at h1 h2 h3
    exact ⟨h1.1, h2, h3⟩
  · rintro ⟨hs, hc, ha⟩
    have h1 : ¬ (r.Subject = "" ∨ r.Amount = 0 ∨ r.Currency = "") := by
      rintro (h | h | h)
      · exact hs h
      · exact absurd h (ne_of_gt ha)
      · rw [hc] at h; exact absurd h (by decide)
    rw [if_neg h1, if_neg (not_not.mpr hc), if_neg (not_le.mpr ha)]

/-- Every error of the validator is a `KhipuServiceError` with status 400 and
no provider body. -/
theorem prepare_error_shape (r : PaymentPostPayment) (e : GoError)
    (h : prepareKhipuPayload r = some e) :
    ∃ msg : String, e = .khipu { Message := msg, StatusCode := 400, KhipuResponseData := none } := by
  unfold prepareKhipuPayload at h
  split_ifs at h
  · exact ⟨msgMissingFields, (Option.some.inj h).symm⟩
  · exact ⟨msgInvalidCurrency, (Option.some.inj h).symm⟩
  · exact ⟨msgAmountNotPositive, (Option.some.inj h).symm⟩

/-- The requests the claims call invalid are the ones the validator rejects. -/
theorem prepare_rejects_of_invalid (r : PaymentPostPayment)
    (hinv : r.Subject = "" ∨ r.Amount = 0 ∨ r.Currency = "" ∨ r.Currency ≠ "ARS" ∨ r.Amount ≤ 0) :
    prepareKhipuPayload r ≠ none := by
  intro h
  obtain ⟨hs, hc, ha⟩ := (prepare_none_iff r).mp h
  rcases hinv with h1 | h1 | h1 | h1 | h1
  · exact hs h1
  · exact absurd h1 (ne_of_gt ha)
  · rw [hc] at h1; exact absurd h1 (by decide)
  · exact h1 hc
  · exact absurd ha (not_lt.mpr h1)

theorem create_of_no_key (w : World) (r : PaymentPostPayment)
    (hkey : w.Getenv "KHIPU_MERCHANT_API_KEY" = "") :
    createKhipuPayment w r =
      { data := none,
        err := some (.khipu { Message := msgMissingKey, StatusCode := 500,
                              KhipuResponseData := none }),
        trace := [] } := by
  simp [createKhipuPayment, hkey, StatusInternalServerError]

theorem create_of_rejected (w : World) (r : PaymentPostPayment) (e : GoError)
    (hkey : w.Getenv "KHIPU_MERCHANT_API_KEY" ≠ "") (h : prepareKhipuPayload r = some e) :
    createKhipuPayment w r = { data := none, err := some e, trace := [] } := by
  simp [createKhipuPayment, hkey, h]

/-- No step is taken without an API key or for a request the validator rejects. -/
theorem create_trace_nil (w : World) (r : PaymentPostPayment)
    (h : w.Getenv "KHIPU_MERCHANT_API_KEY" = "" ∨ prepareKhipuPayload r ≠ none) :
    (createKhipuPayment w r).trace = [] := by
  by_cases hkey : w.Getenv "KHIPU_MERCHANT_API_KEY" = ""
  · rw [create_of_no_key w r hkey]
  · rcases h with h | h
    · exact absurd h hkey
    · obtain ⟨e, he⟩ := Option.ne_none_iff_exists'.mp h
      rw [create_of_rejected w r e hkey he]

/-- The steps of the forwarder: nothing, the payload alone, or the payload
followed by one call of `client.Do`. -/
theorem create_trace_cases (w : World) (r : PaymentPostPayment) :
    (createKhipuPayment w r).trace = [] ∨
    ((w.Getenv "KHIPU_MERCHANT_API_KEY" ≠ "" ∧ prepareKhipuPayload r = none) ∧
      ((createKhipuPayment w r).trace = [.payloadBuilt (buildPayload r)] ∨
       ∃ req, (createKhipuPayment w r).trace = [.payloadBuilt (buildPayload r), .doCalled req])) := by
  by_cases hkey : w.Getenv "KHIPU_MERCHANT_API_KEY" = ""
  · exact Or.inl (create_trace_nil w r (Or.inl hkey))
  · cases hp : prepareKhipuPayload r with
    | some e => exact Or.inl (create_trace_nil w r (Or.inr (by rw [hp]; exact Option.some_ne_none e)))
    | none =>
      refine Or.inr ⟨⟨hkey, rfl⟩, ?_⟩
      simp only [createKhipuPayment, hkey, if_false, hp]
      cases w.jsonMarshal (buildPayload r) with
      | error _ => exact Or.inl rfl
      | ok bytes =>
        simp only
        split
        · exact Or.inl rfl
        · split
          · exact Or.inr ⟨_, rfl⟩
          · split <;> exact Or.inr ⟨_, rfl⟩

/-- When `client.Do` has been called with `req`, the result of the forwarder
is decided by what that call returned. -/
theorem create_of_call (w : World) (r : PaymentPostPayment) (req : HttpRequest)
    (hkey : w.Getenv "KHIPU_MERCHANT_API_KEY" ≠ "") (hp : prepareKhipuPayload r = none)
    (hcall : Event.doCalled req ∈ (createKhipuPayment w r).trace) :
    createKhipuPayment w r =
      match w.clientDo req with
      | .error e =>
        { data := none,
          err := some (.khipu { Message := msgConnection ++ e, StatusCode := 503,
                                KhipuResponseData := none }),
          trace := [.payloadBuilt (buildPayload r), .doCalled req] }
      | .ok resp =>
        if 200 ≤ resp.StatusCode ∧ resp.StatusCode < 300 then
          { data := decodeResponse w resp.Body, err := none,
            trace := [.payloadBuilt (buildPayload r), .doCalled req] }
        else
          { data := none,
            err := some (.khipu { Message := msgProvider, StatusCode := resp.StatusCode,
                                  KhipuResponseData := some (decodeResponse w resp.Body) }),
            trace := [.payloadBuilt (buildPayload r), .doCalled req] } := by
  simp only [createKhipuPayment, hkey, if_false, hp] at hcall ⊢
  cases hm : w.jsonMarshal (buildPayload r) with
  | error _ =>
    rw [hm] at hcall
    simp at hcall
  | ok bytes =>
    rw [hm] at hcall
    simp only at hcall ⊢
    split at hcall
    · simp at hcall
    · rename_i req0 hreq
      have hreq' : req = ((req0.setHeader "Content-Type" "application/json").setHeader
          "Accept" "application/json").setHeader "x-api-key"
            (w.Getenv "KHIPU_MERCHANT_API_KEY") := by
        split at hcall
        · simpa using hcall
        · split at hcall <;> simpa using hcall
      rw [← hreq']
      cases w.clientDo req with
      | error e => rfl
      | ok resp =>
        simp only [StatusServiceUnavailable, ge_iff_le]

/-- When the key is configured, the request valid, the payload serialised and
the URL accepted, `client.Do` is called with `outboundRequest` and its answer
decides the result. -/
theorem create_of_sent (w : World) (r : PaymentPostPayment) (b : String)
    (hkey : w.Getenv "KHIPU_MERCHANT_API_KEY" ≠ "") (hp : prepareKhipuPayload r = none)
    (hm : w.jsonMarshal (buildPayload r) = .ok b)
    (hn : w.newRequestError "POST" (apiEndpoint w) = none) :
    createKhipuPayment w r =
      match w.clientDo (outboundRequest w b) with
      | .error e =>
        { data := none,
          err := some (.khipu { Message := msgConnection ++ e, StatusCode := 503,
                                KhipuResponseData := none }),
          trace := [.payloadBuilt (buildPayload r), .doCalled (outboundRequest w b)] }
      | .ok resp =>
        if 200 ≤ resp.StatusCode ∧ resp.StatusCode < 300 then
          { data := decodeResponse w resp.Body, err := none,
            trace := [.payloadBuilt (buildPayload r), .doCalled (outboundRequest w b)] }
        else
          { data := none,
            err := some (.khipu { Message := msgProvider, StatusCode := resp.StatusCode,
                                  KhipuResponseData := some (decodeResponse w resp.Body) }),
            trace := [.payloadBuilt (buildPayload r), .doCalled (outboundRequest w b)] } := by
  have hreq : w.NewRequest "POST"
      ((if w.Getenv "KHIPU_TARGET_API_URL" = "" then defaultKhipuTargetAPIURL
        else w.Getenv "KHIPU_TARGET_API_URL") ++ "/v3/payments") b =
      .ok { Method := "POST", URL := apiEndpoint w, Header := [], Body := b } := by
    unfold World.NewRequest
    have hn' := hn
    unfold apiEndpoint at hn'
    rw [hn']
    rfl
  simp only [createKhipuPayment, hkey, if_false, hp, hm, hreq]
  change (match w.clientDo (outboundRequest w b) with
    | .error e => _
    | .ok resp => _) = _
  cases w.clientDo (outboundRequest w b) with
  | error e => rfl
  | ok resp => simp only [StatusServiceUnavailable, ge_iff_le]; rfl

theorem setHeader_Body (req : HttpRequest) (k v : String) :
    (req.setHeader k v).Body = req.Body := rfl

/-- The body of the request handed to `client.Do` is the serialised payload. -/
theorem create_call_body (w : World) (r : PaymentPostPayment) (req : HttpRequest)
    (hcall : Event.doCalled req ∈ (createKhipuPayment w r).trace) :
    w.jsonMarshal (buildPayload r) = .ok req.Body := by
  by_cases hkey : w.Getenv "KHIPU_MERCHANT_API_KEY" = ""
  · rw [create_trace_nil w r (Or.inl hkey)] at hcall
    exact absurd hcall (List.not_mem_nil _)
  · cases hp : prepareKhipuPayload r with
    | some e =>
      rw [create_trace_nil w r (Or.inr (by rw [hp]; exact Option.some_ne_none e))] at hcall
      exact absurd hcall (List.not_mem_nil _)
    | none =>
      simp only [createKhipuPayment, hkey, if_false, hp] at hcall
      cases hm : w.jsonMarshal (buildPayload r) with
      | error _ =>
        rw [hm] at hcall
        simp at hcall
      | ok bytes =>
        rw [hm] at hcall
        simp only at hcall
        split at hcall
        · simp at hcall
        · rename_i req0 hreq
          have hreq' : req = ((req0.setHeader "Content-Type" "application/json").setHeader
              "Accept" "application/json").setHeader "x-api-key"
                (w.Getenv "KHIPU_MERCHANT_API_KEY") := by
            split at hcall
            · simpa using hcall
            · split at hcall <;> simpa using hcall
          have hb0 : req0.Body = bytes := by
            unfold World.NewRequest at hreq
            split at hreq
            · exact absurd hreq (by simp)
            · rw [← Except.ok.inj hreq]
          rw [hreq', setHeader_Body, setHeader_Body, setHeader_Body, hb0]

theorem PostPayment_of_bound (w : World) (c : Context) (r : PaymentPostPayment)
    (hb : c.ShouldBindJSON = .ok r) :
    PostPayment w c =
      match (createKhipuPayment w r).err with
      | some (.khipu serviceErr) =>
        match serviceErr.KhipuResponseData with
        | some d => (⟨serviceErr.StatusCode, .relay d⟩, (createKhipuPayment w r).trace)
        | none =>
          (⟨serviceErr.StatusCode, .H [("error", .str serviceErr.Message)]⟩,
            (createKhipuPayment w r).trace)
      | some (.other _) =>
        (⟨500, .H [("error", .str "Error interno del servidor al procesar el pago")]⟩,
          (createKhipuPayment w r).trace)
      | none => (⟨201, .relay (createKhipuPayment w r).data⟩, (createKhipuPayment w r).trace) := by
  simp only [PostPayment, hb, StatusInternalServerError, StatusCreated]

/-- The handler's reply to a request the validator rejects, as a function of
the API key alone. -/
theorem PostPayment_of_rejected (w : World) (c : Context) (r : PaymentPostPayment)
    (hb : c.ShouldBindJSON = .ok r) (hrej : prepareKhipuPayload r ≠ none) :
    ∃ msg : String, ∀ w' : World,
      w'.Getenv "KHIPU_MERCHANT_API_KEY" = w.Getenv "KHIPU_MERCHANT_API_KEY" →
      PostPayment w' c =
        if w.Getenv "KHIPU_MERCHANT_API_KEY" = "" then
          (⟨500, .H [("error", .str msgMissingKey)]⟩, [])
        else (⟨400, .H [("error", .str msg)]⟩, []) := by
  obtain ⟨e, he⟩ := Option.ne_none_iff_exists'.mp hrej
  obtain ⟨msg, hmsg⟩ := prepare_error_shape r e he
  refine ⟨msg, fun w' hw' => ?_⟩
  rw [PostPayment_of_bound w' c r hb]
  by_cases hkey : w.Getenv "KHIPU_MERCHANT_API_KEY" = ""
  · rw [create_of_no_key w' r (hw'.trans hkey), if_pos hkey]
  · rw [create_of_rejected w' r e (by rw [hw']; exact hkey) he, if_neg hkey, hmsg]

theorem ite_some_cases {c : Prop} [Decidable c] {x v : GoValue} {rest : Option GoValue}
    (h : (if c then some x else rest) = some v) : (c ∧ x = v) ∨ (¬ c ∧ rest = some v) := by
  by_cases hc : c
  · rw [if_pos hc] at h
    exact Or.inl ⟨hc, Option.some.inj h⟩
  · rw [if_neg hc] at h
    exact Or.inr ⟨hc, h⟩

/-- No key of the payload of a valid request is bound to an empty text or to
the zero time. -/
theorem buildPayload_no_default (r : PaymentPostPayment)
    (hv : r.Subject ≠ "" ∧ r.Currency = "ARS" ∧ 0 < r.Amount) (k : String) (v : GoValue)
    (h : mapGet (buildPayload r) k = some v) :
    v ≠ .str "" ∧ ∀ t : Time, v = .time t → t.IsZero = false := by
  obtain ⟨hs, hc, _⟩ := hv
  have hc' : r.Currency ≠ "" := by rw [hc]; decide
  rw [mapGet_buildPayload] at h
  rcases ite_some_cases h with ⟨c, rfl⟩ | ⟨-, h⟩
  · refine ⟨fun hh => GoValue.noConfusion hh, fun t ht => ?_⟩
    cases ht
    simpa using c.1
  rcases ite_some_cases h with ⟨c, rfl⟩ | ⟨-, h⟩
  · refine ⟨fun hh => GoValue.noConfusion hh, fun t ht => ?_⟩
    cases ht
    simpa using c.1
  rcases ite_some_cases h with ⟨c, rfl⟩ | ⟨-, h⟩
  · exact ⟨fun hh => c.1 (GoValue.str.inj hh), fun t ht => GoValue.noConfusion ht⟩
  rcases ite_some_cases h with ⟨c, rfl⟩ | ⟨-, h⟩
  · exact ⟨fun hh => c.1 (GoValue.str.inj hh), fun t ht => GoValue.noConfusion ht⟩
  rcases ite_some_cases h with ⟨c, rfl⟩ | ⟨-, h⟩
  · exact ⟨fun hh => c.1 (GoValue.str.inj hh), fun t ht => GoValue.noConfusion ht⟩
  rcases ite_some_cases h with ⟨c, rfl⟩ | ⟨-, h⟩
  · exact ⟨fun hh => c.1 (GoValue.str.inj hh), fun t ht => GoValue.noConfusion ht⟩
  rcases ite_some_cases h with ⟨c, rfl⟩ | ⟨-, h⟩
  · exact ⟨fun hh => c.1 (GoValue.str.inj hh), fun t ht => GoValue.noConfusion ht⟩
  rcases ite_some_cases h with ⟨c, rfl⟩ | ⟨-, h⟩
  · exact ⟨fun hh => c.1 (GoValue.str.inj hh), fun t ht => GoValue.noConfusion ht⟩
  rcases ite_some_cases h with ⟨c, rfl⟩ | ⟨-, h⟩
  · exact ⟨fun hh => c.1 (GoValue.str.inj hh), fun t ht => GoValue.noConfusion ht⟩
  rcases ite_some_cases h with ⟨c, rfl⟩ | ⟨-, h⟩
  · exact ⟨fun hh => c.1 (GoValue.str.inj hh), fun t ht => GoValue.noConfusion ht⟩
  rcases ite_some_cases h with ⟨c, rfl⟩ | ⟨-, h⟩
  · exact ⟨fun hh => c.1 (GoValue.str.inj hh), fun t ht => GoValue.noConfusion ht⟩
  rcases ite_some_cases h with ⟨-, rfl⟩ | ⟨-, h⟩
  · exact ⟨fun hh => hs (GoValue.str.inj hh), fun t ht => GoValue.noConfusion ht⟩
  rcases ite_some_cases h with ⟨-, rfl⟩ | ⟨-, h⟩
  · exact ⟨fun hh => GoValue.noConfusion hh, fun t ht => GoValue.noConfusion ht⟩
  rcases ite_some_cases h with ⟨-, rfl⟩ | ⟨-, h⟩
  · exact ⟨fun hh => hc' (GoValue.str.inj hh), fun t ht => GoValue.noConfusion ht⟩
  · exact absurd h (Option.noConfusion)

/-- The relayed data is the nil map only when `json.Unmarshal` leaves the map
nil and reports no error. -/
theorem decodeResponse_eq_none_iff (w : World) (body : String) :
    decodeResponse w body = none ↔ w.jsonUnmarshal body none = (none, none) := by
  unfold decodeResponse
  rcases hu : w.jsonUnmarshal body none with ⟨m, e⟩
  cases e with
  | none => simp
  | some msg => simp

/-! ## Theorems -/

/-- C1: `prepareKhipuPayload` returns the nil error exactly when `Subject` is
non-empty, `Currency` is "ARS" and `Amount` is strictly positive. -/
theorem prepareKhipuPayload_accepts_iff (r : PaymentPostPayment) :
    prepareKhipuPayload r = none ↔ (r.Subject ≠ "" ∧ r.Currency = "ARS" ∧ 0 < r.Amount) := by
  unfold prepareKhipuPayload
  constructor
  · intro h
    split_ifs at h with h1 h2 h3
    exact ⟨fun hs => h1 (Or.inl hs), not_not.mp h2, not_le.mp h3⟩
  · rintro ⟨hs, hc, ha⟩
    have h1 : ¬ (r.Subject = "" ∨ r.Amount = 0 ∨ r.Currency = "") := by
      rintro (h | h | h)
      · exact hs h
      · exact absurd h (ne_of_gt ha)
      · rw [hc] at h; exact absurd h (by decide)
    rw [if_neg h1, if_neg (not_not.mpr hc), if_neg (not_le.mpr ha)]

/-- C2: when `prepareKhipuPayload` rejects a request, the error is a
`KhipuServiceError` with status 400 and no provider body, and its message is
that of the first failing check: missing fields, then invalid currency, then
non-positive amount; the last one is reported exactly for a non-empty subject,
currency "ARS" and a negative amount, and a zero amount is a missing field. -/
theorem prepareKhipuPayload_first_failing_check (r : PaymentPostPayment)
    (h : prepareKhipuPayload r ≠ none) :
    ∃ msg : String,
      prepareKhipuPayload r =
        some (.khipu { Message := msg, StatusCode := 400, KhipuResponseData := none }) ∧
      ((r.Subject = "" ∨ r.Amount = 0 ∨ r.Currency = "") → msg = msgMissingFields) ∧
      (¬ (r.Subject = "" ∨ r.Amount = 0 ∨ r.Currency = "") → r.Currency ≠ "ARS" →
        msg = msgInvalidCurrency) ∧
      (¬ (r.Subject = "" ∨ r.Amount = 0 ∨ r.Currency = "") → r.Currency = "ARS" →
        msg = msgAmountNotPositive) ∧
      (msg = msgAmountNotPositive ↔ (r.Subject ≠ "" ∧ r.Currency = "ARS" ∧ r.Amount < 0)) ∧
      (r.Amount = 0 → msg = msgMissingFields) := by
  have hne1 : msgMissingFields ≠ msgAmountNotPositive := by decide
  have hne2 : msgInvalidCurrency ≠ msgAmountNotPositive := by decide
  by_cases h1 : r.Subject = "" ∨ r.Amount = 0 ∨ r.Currency = ""
  · refine ⟨msgMissingFields, ?_, fun _ => rfl, fun hn => absurd h1 hn, fun hn => absurd h1 hn,
      ⟨fun hm => absurd hm hne1, ?_⟩, fun _ => rfl⟩
    · unfold prepareKhipuPayload
      rw [if_pos h1]
      rfl
    · rintro ⟨hs, hc, ha⟩
      rcases h1 with h1 | h1 | h1
      · exact absurd h1 hs
      · rw [h1] at ha; exact absurd ha (lt_irrefl 0)
      · rw [hc] at h1; exact absurd h1 (by decide)
  · by_cases h2 : r.Currency = "ARS"
    · have h3 : r.Amount ≤ 0 := by
        by_contra h3
        exact h (by
          unfold prepareKhipuPayload
          rw [if_neg h1, if_neg (not_not.mpr h2), if_neg h3])
      have hA : r.Amount ≠ 0 := fun hA => h1 (Or.inr (Or.inl hA))
      have hS : r.Subject ≠ "" := fun hS => h1 (Or.inl hS)
      refine ⟨msgAmountNotPositive, ?_, fun hn => absurd hn h1, fun _ hn => absurd h2 hn,
        fun _ _ => rfl, ⟨fun _ => ⟨hS, h2, lt_of_le_of_ne h3 hA⟩, fun _ => rfl⟩,
        fun hz => absurd hz hA⟩
      unfold prepareKhipuPayload
      rw [if_neg h1, if_neg (not_not.mpr h2), if_pos h3]
      rfl
    · refine ⟨msgInvalidCurrency, ?_, fun hn => absurd hn h1, fun _ _ => rfl,
        fun _ hn => absurd hn h2, ⟨fun hm => absurd hm hne2, fun hn => absurd hn.2.1 h2⟩,
        fun hz => absurd (Or.inr (Or.inl hz)) h1⟩
      unfold prepareKhipuPayload
      rw [if_neg h1, if_pos h2]
      rfl

/-- Witness for C2: a request whose subject is empty is rejected. -/
theorem prepareKhipuPayload_first_failing_check_witness :
    ∃ msg : String,
      prepareKhipuPayload (basicRequest "" 5 "ARS") =
        some (.khipu { Message := msg, StatusCode := 400, KhipuResponseData := none }) ∧
      (((basicRequest "" 5 "ARS").Subject = "" ∨ (basicRequest "" 5 "ARS").Amount = 0 ∨
          (basicRequest "" 5 "ARS").Currency = "") → msg = msgMissingFields) ∧
      (¬ ((basicRequest "" 5 "ARS").Subject = "" ∨ (basicRequest "" 5 "ARS").Amount = 0 ∨
          (basicRequest "" 5 "ARS").Currency = "") → (basicRequest "" 5 "ARS").Currency ≠ "ARS" →
        msg = msgInvalidCurrency) ∧
      (¬ ((basicRequest "" 5 "ARS").Subject = "" ∨ (basicRequest "" 5 "ARS").Amount = 0 ∨
          (basicRequest "" 5 "ARS").Currency = "") → (basicRequest "" 5 "ARS").Currency = "ARS" →
        msg = msgAmountNotPositive) ∧
      (msg = msgAmountNotPositive ↔ ((basicRequest "" 5 "ARS").Subject ≠ "" ∧
          (basicRequest "" 5 "ARS").Currency = "ARS" ∧ (basicRequest "" 5 "ARS").Amount < 0)) ∧
      ((basicRequest "" 5 "ARS").Amount = 0 → msg = msgMissingFields) :=
  prepareKhipuPayload_first_failing_check (basicRequest "" 5 "ARS")
    (by simp [prepareKhipuPayload, basicRequest])

/-- C3 (counterexample): with no API key in the environment, a request with
empty subject, zero amount and empty currency is answered with status 500, so
the status is not 400 whatever the configuration. -/
theorem PostPayment_invalid_request_not_always_400 :
    (PostPayment (simulatedWorld none none (.error "connection refused"))
        ⟨.ok (basicRequest "" 0 "")⟩).1.code = 500 ∧
    ¬ (∀ (w : World) (c : Context) (r : PaymentPostPayment), c.ShouldBindJSON = .ok r →
        (r.Subject = "" ∨ r.Amount = 0 ∨ r.Currency = "" ∨ r.Currency ≠ "ARS" ∨ r.Amount ≤ 0) →
        (PostPayment w c).1.code = 400) := by
  refine ⟨by decide, fun h => ?_⟩
  have h500 := h (simulatedWorld none none (.error "connection refused"))
    ⟨.ok (basicRequest "" 0 "")⟩ (basicRequest "" 0 "") rfl (Or.inl rfl)
  revert h500
  decide

/-- C3 (amended): for a bound request that is missing subject, amount or
currency, or whose currency is not "ARS", or whose amount is at most zero, the
reply of `PostPayment` has status 400 when the API key is configured and 500
when it is absent or empty; in both cases the forwarder takes no step (no
payload, no outbound call) and the reply does not depend on the provider. -/
theorem PostPayment_invalid_request (w : World) (c : Context) (r : PaymentPostPayment)
    (hb : c.ShouldBindJSON = .ok r)
    (hinv : r.Subject = "" ∨ r.Amount = 0 ∨ r.Currency = "" ∨ r.Currency ≠ "ARS" ∨ r.Amount ≤ 0) :
    (PostPayment w c).1.code = (if w.Getenv "KHIPU_MERCHANT_API_KEY" = "" then 500 else 400) ∧
    (PostPayment w c).2 = [] ∧
    ∀ f : HttpRequest → Except String HttpResponse,
      PostPayment { w with clientDo := f } c = PostPayment w c := by
  obtain ⟨msg, hmsg⟩ := PostPayment_of_rejected w c r hb (prepare_rejects_of_invalid r hinv)
  refine ⟨?_, ?_, fun f => ?_⟩
  · rw [hmsg w rfl]
    split_ifs <;> rfl
  · rw [hmsg w rfl]
    split_ifs <;> rfl
  · rw [hmsg w rfl, hmsg { w with clientDo := f } rfl]

/-- Witness for C3 (amended): a request in a currency other than "ARS", with the
API key configured. -/
theorem PostPayment_invalid_request_witness :
    (PostPayment (simulatedWorld (some "secret") none (.error "connection refused"))
        ⟨.ok (basicRequest "Order 1" 1000 "USD")⟩).1.code = 400 :=
  (PostPayment_invalid_request (simulatedWorld (some "secret") none (.error "connection refused"))
    ⟨.ok (basicRequest "Order 1" 1000 "USD")⟩ (basicRequest "Order 1" 1000 "USD") rfl
    (Or.inr (Or.inr (Or.inr (Or.inl (by decide)))))).1

/-- C4: for a valid request, every payload map `createKhipuPayment` builds (it
builds one whenever the API key is configured) binds `subject`, `amount` and
`currency` to the request's values, binds each of the eleven optional keys
exactly when the request's value is non-default, to that value, and binds no
other key. -/
theorem createKhipuPayment_payload_contents (w : World) (r : PaymentPostPayment)
    (hv : r.Subject ≠ "" ∧ r.Currency = "ARS" ∧ 0 < r.Amount) :
    (w.Getenv "KHIPU_MERCHANT_API_KEY" ≠ "" →
      ∃ p, Event.payloadBuilt p ∈ (createKhipuPayment w r).trace) ∧
    ∀ p, Event.payloadBuilt p ∈ (createKhipuPayment w r).trace →
      mapGet p "subject" = some (.str r.Subject) ∧
      mapGet p "amount" = some (.num r.Amount) ∧
      mapGet p "currency" = some (.str r.Currency) ∧
      mapGet p "transaction_id" =
        (if r.TransactionId ≠ "" then some (.str r.TransactionId) else none) ∧
      mapGet p "custom" = (if r.Custom ≠ "" then some (.str r.Custom) else none) ∧
      mapGet p "body" = (if r.Body ≠ "" then some (.str r.Body) else none) ∧
      mapGet p "bank_id" = (if r.BankId ≠ "" then some (.str r.BankId) else none) ∧
      mapGet p "payer_email" = (if r.PayerEmail ≠ "" then some (.str r.PayerEmail) else none) ∧
      mapGet p "return_url" = (if r.ReturnUrl ≠ "" then some (.str r.ReturnUrl) else none) ∧
      mapGet p "cancel_url" = (if r.CancelUrl ≠ "" then some (.str r.CancelUrl) else none) ∧
      mapGet p "notify_url" = (if r.NotifyUrl ≠ "" then some (.str r.NotifyUrl) else none) ∧
      mapGet p "picture_url" = (if r.PictureUrl ≠ "" then some (.str r.PictureUrl) else none) ∧
      mapGet p "expires_date" =
        (if r.ExpiresDate.IsZero = false then some (.time r.ExpiresDate) else none) ∧
      mapGet p "confirm_timeout_date" =
        (if r.ConfirmTimeoutDate.IsZero = false then some (.time r.ConfirmTimeoutDate)
         else none) ∧
      ∀ k : String,
        k ∉ ["subject", "amount", "currency", "transaction_id", "custom", "body", "bank_id",
             "payer_email", "return_url", "cancel_url", "notify_url", "picture_url",
             "expires_date", "confirm_timeout_date"] →
        mapGet p k = none := by
  have hp : prepareKhipuPayload r = none := (prepare_none_iff r).mpr hv
  have hbuilt : ∀ p, Event.payloadBuilt p ∈ (createKhipuPayment w r).trace →
      p = buildPayload r := by
    intro p hmem
    rcases create_trace_cases w r with h | ⟨_, h | ⟨req, h⟩⟩ <;> rw [h] at hmem <;>
      simp at hmem <;> exact hmem
  constructor
  · intro hkey
    refine ⟨buildPayload r, ?_⟩
    rcases create_trace_cases w r with h | ⟨_, h | ⟨req, h⟩⟩
    · exfalso
      have : (createKhipuPayment w r).trace ≠ [] := by
        simp only [createKhipuPayment, hkey, if_false, hp]
        cases w.jsonMarshal (buildPayload r) with
        | error _ => simp
        | ok bytes =>
          simp only
          split
          · simp
          · split
            · simp
            · split <;> simp
      exact this h
    · rw [h]; exact List.mem_cons_self _ _
    · rw [h]; exact List.mem_cons_self _ _
  · intro p hmem
    rw [hbuilt p hmem]
    simp only [mapGet_buildPayload]
    refine ⟨?_, ?_, ?_, ?_, ?_, ?_, ?_, ?_, ?_, ?_, ?_, ?_, ?_, ?_, ?_⟩
    · simp
    · simp
    · simp
    · simp
    · simp
    · simp
    · simp
    · simp
    · simp
    · simp
    · simp
    · simp
    · simp
    · simp
    · intro k hk
      simp only [List.mem_cons, List.mem_singleton, List.not_mem_nil, or_false, not_or] at hk
      obtain ⟨h1, h2, h3, h4, h5, h6, h7, h8, h9, h10, h11, h12, h13, h14⟩ := hk
      simp [Ne.symm h1, Ne.symm h2, Ne.symm h3, Ne.symm h4, Ne.symm h5, Ne.symm h6, Ne.symm h7,
        Ne.symm h8, Ne.symm h9, Ne.symm h10, Ne.symm h11, Ne.symm h12, Ne.symm h13, Ne.symm h14]

/-- Witness for C4: the payload built for `demoRequest` with the key configured. -/
theorem createKhipuPayment_payload_contents_witness :
    ∃ p, Event.payloadBuilt p ∈
      (createKhipuPayment (simulatedWorld (some "secret") none (.error "connection refused"))
        demoRequest).trace :=
  (createKhipuPayment_payload_contents
    (simulatedWorld (some "secret") none (.error "connection refused")) demoRequest
    ⟨by decide, rfl, by decide⟩).1 (by decide)

/-- C5: when `KHIPU_MERCHANT_API_KEY` is absent or empty, `createKhipuPayment`
returns, for every request, a `KhipuServiceError` with status 500 and no
provider body, takes no step (no payload, no outbound call), and returns the
same in every other world without the key, whatever its provider and its base
URL. -/
theorem createKhipuPayment_missing_api_key (w : World) (r : PaymentPostPayment)
    (hkey : w.environ "KHIPU_MERCHANT_API_KEY" = none ∨
            w.environ "KHIPU_MERCHANT_API_KEY" = some "") :
    (createKhipuPayment w r).data = none ∧
    (createKhipuPayment w r).err =
      some (.khipu { Message := "Error de configuración del servidor: clave API de Khipu faltante",
                     StatusCode := 500, KhipuResponseData := none }) ∧
    (createKhipuPayment w r).trace = [] ∧
    ∀ w' : World,
      (w'.environ "KHIPU_MERCHANT_API_KEY" = none ∨
        w'.environ "KHIPU_MERCHANT_API_KEY" = some "") →
      createKhipuPayment w' r = createKhipuPayment w r := by
  have hget : ∀ v : World,
      (v.environ "KHIPU_MERCHANT_API_KEY" = none ∨ v.environ "KHIPU_MERCHANT_API_KEY" = some "") →
      v.Getenv "KHIPU_MERCHANT_API_KEY" = "" := by
    intro v hv
    unfold World.Getenv
    rcases hv with hv | hv <;> rw [hv] <;> rfl
  refine ⟨?_, ?_, ?_, fun w' hw' => ?_⟩
  · rw [create_of_no_key w r (hget w hkey)]
  · rw [create_of_no_key w r (hget w hkey)]; rfl
  · rw [create_of_no_key w r (hget w hkey)]
  · rw [create_of_no_key w r (hget w hkey), create_of_no_key w' r (hget w' hw')]

/-- Witness for C5: a valid request in a world without the key, compared with a
world with another base URL and a provider that would answer 201. -/
theorem createKhipuPayment_missing_api_key_witness :
    (createKhipuPayment (simulatedWorld none none (.error "connection refused"))
        demoRequest).trace = [] ∧
    createKhipuPayment
        (simulatedWorld (some "") (some "http://localhost:8080") (.ok ⟨201, "\x7b\x7d"⟩)) demoRequest =
      createKhipuPayment (simulatedWorld none none (.error "connection refused")) demoRequest :=
  ⟨(createKhipuPayment_missing_api_key (simulatedWorld none none (.error "connection refused"))
      demoRequest (Or.inl rfl)).2.2.1,
   (createKhipuPayment_missing_api_key (simulatedWorld none none (.error "connection refused"))
      demoRequest (Or.inl rfl)).2.2.2
      (simulatedWorld (some "") (some "http://localhost:8080") (.ok ⟨201, "\x7b\x7d"⟩)) (Or.inr rfl)⟩

/-- C6: for a valid request with the API key configured, once the payload is
serialised and `http.NewRequest` accepts the URL, whenever the provider answers
the request with a status in [200,300) and a body that decodes to the JSON
object `o`, `client.Do` is called, `createKhipuPayment` returns `o` and no
error, and `PostPayment` replies 201 with `o`, whatever the 2xx status of the
provider. -/
theorem createKhipuPayment_success_relay (w : World) (r : PaymentPostPayment)
    (b : String) (resp : HttpResponse) (o : MapData)
    (hkey : w.Getenv "KHIPU_MERCHANT_API_KEY" ≠ "")
    (hv : r.Subject ≠ "" ∧ r.Currency = "ARS" ∧ 0 < r.Amount)
    (hmarshal : w.jsonMarshal (buildPayload r) = .ok b)
    (hnew : w.newRequestError "POST" (apiEndpoint w) = none)
    (hresp : w.clientDo (outboundRequest w b) = .ok resp)
    (hstatus : 200 ≤ resp.StatusCode ∧ resp.StatusCode < 300)
    (hparse : w.jsonUnmarshal resp.Body none = (some o, none)) :
    (createKhipuPayment w r).data = some o ∧
    (createKhipuPayment w r).err = none ∧
    Event.doCalled (outboundRequest w b) ∈ (createKhipuPayment w r).trace ∧
    ∀ c : Context, c.ShouldBindJSON = .ok r →
      (PostPayment w c).1 = { code := 201, obj := .relay (some o) } := by
  have hdec : decodeResponse w resp.Body = some o := by
    simp [decodeResponse, hparse]
  have hout := create_of_sent w r b hkey ((prepare_none_iff r).mpr hv) hmarshal hnew
  rw [hresp] at hout
  simp only [if_pos hstatus, hdec] at hout
  refine ⟨by rw [hout], by rw [hout], ?_, fun c hb => ?_⟩
  · rw [hout]
    exact List.mem_cons_of_mem _ (List.mem_cons_self _ _)
  · rw [PostPayment_of_bound w c r hb, hout]

/-- Witness for C6: the provider answers 200 with `{"payment_id":"abc"}`. -/
theorem createKhipuPayment_success_relay_witness :
    (PostPayment (simulatedWorld (some "secret") none (.ok ⟨200, "\x7b\"payment_id\":\"abc\"\x7d"⟩))
        ⟨.ok demoRequest⟩).1 =
      { code := 201, obj := .relay (some [("payment_id", .str "abc")]) } :=
  (createKhipuPayment_success_relay
    (simulatedWorld (some "secret") none (.ok ⟨200, "\x7b\"payment_id\":\"abc\"\x7d"⟩)) demoRequest
    "\x7b\x7d" ⟨200, "\x7b\"payment_id\":\"abc\"\x7d"⟩ [("payment_id", .str "abc")]
    (by decide) ⟨by decide, rfl, by decide⟩ rfl rfl rfl ⟨by decide, by decide⟩ rfl).2.2.2
    ⟨.ok demoRequest⟩ rfl

/-- C7: for a valid request with the API key configured, once the payload is
serialised and `http.NewRequest` accepts the URL, whenever the provider answers
the request with a status outside [200,300), `client.Do` is called and
`createKhipuPayment` returns a `KhipuServiceError` with the provider's status,
the fixed message and the decoded provider body as `KhipuResponseData` (the
parsed object when the body decodes to one); `PostPayment` replies with the
provider's status and that body, not with a `gin.H` error object. -/
theorem createKhipuPayment_provider_error_relay (w : World) (r : PaymentPostPayment)
    (b : String) (resp : HttpResponse)
    (hkey : w.Getenv "KHIPU_MERCHANT_API_KEY" ≠ "")
    (hv : r.Subject ≠ "" ∧ r.Currency = "ARS" ∧ 0 < r.Amount)
    (hmarshal : w.jsonMarshal (buildPayload r) = .ok b)
    (hnew : w.newRequestError "POST" (apiEndpoint w) = none)
    (hresp : w.clientDo (outboundRequest w b) = .ok resp)
    (hstatus : ¬ (200 ≤ resp.StatusCode ∧ resp.StatusCode < 300)) :
    (createKhipuPayment w r).data = none ∧
    (createKhipuPayment w r).err =
      some (.khipu { Message := "Error recibido desde la API de Khipu",
                     StatusCode := resp.StatusCode,
                     KhipuResponseData := some (decodeResponse w resp.Body) }) ∧
    Event.doCalled (outboundRequest w b) ∈ (createKhipuPayment w r).trace ∧
    (∀ o : MapData, w.jsonUnmarshal resp.Body none = (some o, none) →
      decodeResponse w resp.Body = some o) ∧
    ∀ c : Context, c.ShouldBindJSON = .ok r →
      (PostPayment w c).1 =
        { code := resp.StatusCode, obj := .relay (decodeResponse w resp.Body) } ∧
      ∀ fields : MapData, (PostPayment w c).1.obj ≠ .H fields := by
  have hout := create_of_sent w r b hkey ((prepare_none_iff r).mpr hv) hmarshal hnew
  rw [hresp] at hout
  simp only [if_neg hstatus] at hout
  have hpost : ∀ c : Context, c.ShouldBindJSON = .ok r →
      (PostPayment w c).1 =
        { code := resp.StatusCode, obj := .relay (decodeResponse w resp.Body) } := by
    intro c hb
    rw [PostPayment_of_bound w c r hb, hout]
  refine ⟨by rw [hout], by rw [hout]; rfl, ?_, fun o ho => ?_,
    fun c hb => ⟨hpost c hb, fun fields => ?_⟩⟩
  · rw [hout]
    exact List.mem_cons_of_mem _ (List.mem_cons_self _ _)
  · simp [decodeResponse, ho]
  · rw [hpost c hb]
    exact fun h => JSONObj.noConfusion h

/-- Witness for C7: the provider answers 402 with
`{"message":"insufficient funds"}`. -/
theorem createKhipuPayment_provider_error_relay_witness :
    (PostPayment
        (simulatedWorld (some "secret") none
          (.ok ⟨402, "\x7b\"message\":\"insufficient funds\"\x7d"⟩))
        ⟨.ok demoRequest⟩).1 =
      { code := 402, obj := .relay (some [("message", .str "insufficient funds")]) } :=
  ((createKhipuPayment_provider_error_relay
    (simulatedWorld (some "secret") none
      (.ok ⟨402, "\x7b\"message\":\"insufficient funds\"\x7d"⟩))
    demoRequest "\x7b\x7d" ⟨402, "\x7b\"message\":\"insufficient funds\"\x7d"⟩
    (by decide) ⟨by decide, rfl, by decide⟩ rfl rfl rfl (by decide)).2.2.2.2
    ⟨.ok demoRequest⟩ rfl).1

/-- C8 (evaluation at the failing input): an empty body, a JSON array and a
JSON number are wrapped under `raw_response`, but when the provider body is the
JSON literal `null`, `json.Unmarshal` reports no error and leaves the map nil, so
`createKhipuPayment` relays the nil map, not `{"raw_response": "null"}`: as the
success value for status 201 (the handler then replies 201 with a nil map,
which is serialised as `null`), and as `KhipuResponseData` for status 402 (the
interface is non-nil, so the handler relays the nil map instead of the error
object). -/
theorem createKhipuPayment_null_body_relays_nil_map :
    goUnmarshal "null" none = (none, none) ∧
    decodeResponse (simulatedWorld (some "secret") none (.ok ⟨201, "null"⟩)) "null" = none ∧
    decodeResponse (simulatedWorld (some "secret") none (.ok ⟨201, "null"⟩)) "" =
      some [("raw_response", .str "")] ∧
    decodeResponse (simulatedWorld (some "secret") none (.ok ⟨201, "null"⟩)) "[1,2]" =
      some [("raw_response", .str "[1,2]")] ∧
    decodeResponse (simulatedWorld (some "secret") none (.ok ⟨201, "null"⟩)) "12" =
      some [("raw_response", .str "12")] ∧
    (createKhipuPayment (simulatedWorld (some "secret") none (.ok ⟨201, "null"⟩))
        demoRequest).data = none ∧
    (createKhipuPayment (simulatedWorld (some "secret") none (.ok ⟨201, "null"⟩))
        demoRequest).err = none ∧
    (PostPayment (simulatedWorld (some "secret") none (.ok ⟨201, "null"⟩))
        ⟨.ok demoRequest⟩).1 = { code := 201, obj := .relay none } ∧
    (createKhipuPayment (simulatedWorld (some "secret") none (.ok ⟨402, "null"⟩))
        demoRequest).err =
      some (.khipu { Message := msgProvider, StatusCode := 402,
                     KhipuResponseData := some none }) ∧
    (PostPayment (simulatedWorld (some "secret") none (.ok ⟨402, "null"⟩))
        ⟨.ok demoRequest⟩).1 = { code := 402, obj := .relay none } :=
  ⟨rfl, rfl, rfl, rfl, rfl, rfl, rfl, rfl, rfl, rfl⟩

/-- C9: for a valid request with the API key configured, when `client.Do` was
called and failed with error text `t`, `createKhipuPayment` returns a
`KhipuServiceError` with status 503, no provider body and the message
"Error de conexión con Khipu API: " followed by `t` (so the message contains
`t`); `PostPayment` replies 503 with the object `{"error": Message}`. -/
theorem createKhipuPayment_transport_failure (w : World) (r : PaymentPostPayment)
    (req : HttpRequest) (t : String)
    (hkey : w.Getenv "KHIPU_MERCHANT_API_KEY" ≠ "")
    (hv : r.Subject ≠ "" ∧ r.Currency = "ARS" ∧ 0 < r.Amount)
    (hcall : Event.doCalled req ∈ (createKhipuPayment w r).trace)
    (hresp : w.clientDo req = .error t) :
    (createKhipuPayment w r).data = none ∧
    (createKhipuPayment w r).err =
      some (.khipu { Message := "Error de conexión con Khipu API: " ++ t, StatusCode := 503,
                     KhipuResponseData := none }) ∧
    List.IsInfix t.data ("Error de conexión con Khipu API: " ++ t).data ∧
    ∀ c : Context, c.ShouldBindJSON = .ok r →
      (PostPayment w c).1 =
        { code := 503,
          obj := .H [("error", .str ("Error de conexión con Khipu API: " ++ t))] } := by
  have hout := create_of_call w r req hkey ((prepare_none_iff r).mpr hv) hcall
  rw [hresp] at hout
  simp only at hout
  refine ⟨by rw [hout], by rw [hout]; rfl, ?_, fun c hb => ?_⟩
  · rw [String.data_append]
    exact (List.suffix_append _ _).isInfix
  · rw [PostPayment_of_bound w c r hb, hout]
    rfl

/-- Witness for C9: the provider is unreachable. -/
theorem createKhipuPayment_transport_failure_witness :
    (PostPayment (simulatedWorld (some "secret") none (.error "dial tcp: connection refused"))
        ⟨.ok demoRequest⟩).1 =
      { code := 503,
        obj := .H [("error",
          .str ("Error de conexión con Khipu API: " ++ "dial tcp: connection refused"))] } :=
  (createKhipuPayment_transport_failure
    (simulatedWorld (some "secret") none (.error "dial tcp: connection refused")) demoRequest
    demoOutbound "dial tcp: connection refused"
    (by decide) ⟨by decide, rfl, by decide⟩
    (List.mem_cons_of_mem _ (List.mem_cons_self _ _)) rfl).2.2.2
    ⟨.ok demoRequest⟩ rfl

/-- C10: whenever `createKhipuPayment` builds a payload, the request has passed
`prepareKhipuPayload`, the payload's subject is non-empty, its amount strictly
positive and its currency "ARS", and no key of it is bound to an empty text or
a zero time; whenever it calls `client.Do`, that payload has been built and its
serialisation is the body sent; for a request the validator rejects it builds
and sends nothing. -/
theorem createKhipuPayment_payload_invariant (w : World) (r : PaymentPostPayment) :
    (∀ p, Event.payloadBuilt p ∈ (createKhipuPayment w r).trace →
      prepareKhipuPayload r = none ∧
      (∃ s : String, mapGet p "subject" = some (.str s) ∧ s ≠ "") ∧
      (∃ a : ℚ, mapGet p "amount" = some (.num a) ∧ 0 < a) ∧
      mapGet p "currency" = some (.str "ARS") ∧
      ∀ (k : String) (v : GoValue), mapGet p k = some v →
        v ≠ .str "" ∧ ∀ t : Time, v = .time t → t.IsZero = false) ∧
    (∀ req, Event.doCalled req ∈ (createKhipuPayment w r).trace →
      Event.payloadBuilt (buildPayload r) ∈ (createKhipuPayment w r).trace ∧
      w.jsonMarshal (buildPayload r) = .ok req.Body) ∧
    (prepareKhipuPayload r ≠ none → (createKhipuPayment w r).trace = []) := by
  refine ⟨fun p hmem => ?_, fun req hmem => ⟨?_, create_call_body w r req hmem⟩,
    fun h => create_trace_nil w r (Or.inr h)⟩
  · rcases create_trace_cases w r with h | ⟨⟨_, hp⟩, h⟩
    · rw [h] at hmem
      exact absurd hmem (List.not_mem_nil _)
    · have hpe : p = buildPayload r := by
        rcases h with h | ⟨req, h⟩ <;> rw [h] at hmem <;> simp at hmem <;> exact hmem
      have hv := (prepare_none_iff r).mp hp
      subst hpe
      refine ⟨hp, ⟨r.Subject, ?_, hv.1⟩, ⟨r.Amount, ?_, hv.2.2⟩, ?_,
        fun k v hk => buildPayload_no_default r hv k v hk⟩
      · simp [mapGet_buildPayload]
      · simp [mapGet_buildPayload]
      · rw [← hv.2.1]
        simp [mapGet_buildPayload]
  · rcases create_trace_cases w r with h | ⟨_, h | ⟨req', h⟩⟩
    · rw [h] at hmem
      exact absurd hmem (List.not_mem_nil _)
    · rw [h] at hmem
      simp at hmem
    · rw [h]
      exact List.mem_cons_self _ _

end Khipu
